import Mathlib

/-!
Shallow embedding of `src/api/analyze.js` (trust-lens-backend).

The file models the four functions of the source — `analyzeQueryFraming`,
`analyzeNetwork`, `analyzeSimplifiedEEAT`, `synthesizeScore` — and the
request `handler` that composes them.  Platform capabilities used by the
code (the DNS lookup `dns.lookup`, the two `fetch` calls, and the WHATWG
URL parser invoked by `new URL(u).hostname`) are modelled as an explicit
environment record of oracles; `none` for an oracle models the call
throwing.  The two `process.env` credentials are modelled by a
configuration record of Booleans (JS truthiness of the env variable).
A function that can raise an uncaught exception (only the `new URL`
constructor, which sits outside every try/catch in the source) returns
`Option`; everything else is total, mirroring the catch-all handlers in
the source.  JS number arithmetic on these small non-negative integers is
modelled exactly: `Math.max(0, a - b)` on naturals is truncated
subtraction, and `Math.round(x)` for `x ≥ 0` is `⌊x + 1/2⌋`, giving the
natural-division formulas used below.
-/

namespace TrustLens

/-- A cited source, `{ url: string }` (spec §3, consumed by `handler`). -/
structure Source where
  url : String
deriving Repr, DecidableEq

/-- Result record of `analyzeQueryFraming` (analyze.js lines 44, 61, 64). -/
structure FramingResult where
  score : Nat
  isBiased : Bool
  details : String
deriving Repr, DecidableEq

/-- Result record of `analyzeNetwork` (analyze.js lines 70, 91). -/
structure NetResult where
  score : Nat
  details : String
deriving Repr, DecidableEq

/-- Result record of `analyzeSimplifiedEEAT` (analyze.js lines 99, 101, 124). -/
structure EEATResult where
  score : Nat
  details : String
deriving Repr, DecidableEq

/-- The `analysisResults` record assembled by the handler (analyze.js lines 14-18). -/
structure Metrics where
  queryFraming : FramingResult
  networkAnalysis : NetResult
  simplifiedEEAT : EEATResult
deriving Repr, DecidableEq

/-- The final response body (analyze.js lines 29-34). -/
structure OverallResult where
  overallScore : Nat
  summary : String
  alternativeAnswer : String
  metrics : Metrics
deriving Repr, DecidableEq

/-- Presence (JS truthiness) of the two `process.env` credentials:
`DEEPSEEK_API_KEY` (line 41) and `SEARCH_API_KEY` (line 96). -/
structure Config where
  deepseekApiKey : Bool
  searchApiKey : Bool
deriving Repr, DecidableEq

/-- Oracles for the platform capabilities the code calls out to.

* `classify q` — the DeepSeek call of `analyzeQueryFraming` (lines 49-59).
  The code sends a fixed prompt template wrapping the user query `q` and
  reads back `data.choices[0].message.content`; `some content` models a
  successful round trip delivering that string, `none` models any throw
  inside the `try` (network error, non-JSON body, missing fields).
* `dns d` — `dns.lookup(d)` (line 77): `some address` or `none` for a
  rejected lookup.
* `search d` — the SerpApi call of `analyzeSimplifiedEEAT` (lines 110-112).
  `none` models a throw (network error or non-JSON body).
  `some tr` models a parsed JSON response, with `tr` the value of
  `data.search_information?.total_results`: `some n` when the field is a
  number `n`, `none` when the chain is absent (the `|| 0` in the code
  then yields 0).
* `urlHost u` — `new URL(u).hostname` (lines 71, 105): `some h` on a
  parseable URL, `none` when the constructor throws. -/
structure Env where
  classify : String → Option String
  dns : String → Option String
  search : String → Option (Option Nat)
  urlHost : String → Option String

/-- JS `String.prototype.includes(pat)`: `pat` occurs as a contiguous
substring of `s` (used at line 60, where the code asks whether the
response includes "biased"). -/
def strContains (s pat : String) : Bool :=
  (List.range (s.length + 1)).any fun i => pat.toList.isPrefixOf (s.toList.drop i)

/-- Model of `Math.round(t / n)` for naturals with `n > 0`, in exact rational
arithmetic: `⌊t/n + 1/2⌋ = (2t + n) / (2n)` (line 123-124). -/
def jsRoundDiv (t n : Nat) : Nat := (2 * t + n) / (2 * n)

/-- Model of `Math.round(q*0.1 + net*0.5 + e*0.4)` in exact rational arithmetic:
the weighted sum is `(q + 5*net + 4*e)/10`, and rounding half-up gives
`(q + 5*net + 4*e + 5)/10` (analyze.js lines 129-134). -/
def jsRound10 (q net e : Nat) : Nat := (q + 5 * net + 4 * e + 5) / 10

/-- Embeds `analyzeQueryFraming` (analyze.js lines 39-66).  With no credential it
returns the skipped default (line 44); on a successful classification it
trims, lower-cases and substring-matches the response (lines 59-61); on
any throw it returns the neutral fallback (line 64). -/
def analyzeQueryFraming (cfg : Config) (env : Env) (userQuery : String) : FramingResult :=
  if !cfg.deepseekApiKey then
    { score := 100, isBiased := false, details := "Analysis skipped: API Key not configured." }
  else
    match env.classify userQuery with
    | none => { score := 100, isBiased := false, details := "Analysis could not be performed." }
    | some content =>
      let result := content.trim.toLower
      let isBiased := strContains result "biased"
      { score := if isBiased then 50 else 100, isBiased := isBiased,
        details := s!"Query was classified as: {result}" }

/-- First-occurrence deduplication, the semantics of
`[...new Set(list)]` on an array of strings (lines 71, 105). -/
def jsSetDedup (l : List String) : List String :=
  l.foldl (fun acc x => if x ∈ acc then acc else acc ++ [x]) []

/-- Models `sources.map(src => new URL(src.url).hostname)` (lines 71, 105): maps
each URL through the platform URL parser, propagating the first throw
(`new URL` sits outside every try/catch, so a malformed URL aborts). -/
def extractHosts (env : Env) : List Source → Option (List String)
  | [] => some []
  | s :: rest =>
    match env.urlHost s.url with
    | none => none
    | some h =>
      match extractHosts env rest with
      | none => none
      | some hs => some (h :: hs)

/-- Models `[...new Set(sources.map(src => new URL(src.url).hostname))]`
(lines 71, 105): the unique hostnames, in first-occurrence order. -/
def extractUniqueDomains (env : Env) (sources : List Source) : Option (List String) :=
  (extractHosts env sources).map jsSetDedup

/-- Mutable state of the loop in `analyzeNetwork` (lines 72-73): the
`ipMap` object (a total function, the empty list standing for an absent
key — stored lists are always non-empty) and the `sharedIpDomains` Set. -/
@[ext]
structure NetState where
  ipMap : String → List String
  shared : Finset String

/-- One iteration of the domain loop of `analyzeNetwork` (lines 75-87).
A failed lookup leaves the state unchanged (the catch at line 84); when
the address was already seen, the domain is pushed first and then every
domain of the updated bucket is added to `sharedIpDomains`
(lines 78-80). -/
def netStep (resolve : String → Option String) (st : NetState) (domain : String) : NetState :=
  match resolve domain with
  | none => st
  | some addr =>
    match st.ipMap addr with
    | [] => { st with ipMap := fun a => if a = addr then [domain] else st.ipMap a }
    | e :: es =>
      let updated := (e :: es) ++ [domain]
      { ipMap := fun a => if a = addr then updated else st.ipMap a,
        shared := st.shared ∪ updated.toFinset }

/-- The whole domain loop of `analyzeNetwork` run from the empty state. -/
def netLoop (resolve : String → Option String) (domains : List String) : NetState :=
  domains.foldl (netStep resolve) ⟨fun _ => [], ∅⟩

/-- Embeds `analyzeNetwork` (analyze.js lines 68-92).  Empty input short-circuits
(line 70); a malformed URL makes `new URL` throw outside any try/catch,
modelled by `none`; otherwise the loop runs and
`score = Math.max(0, 100 - 20*|sharedIpDomains|)`, which on naturals is
truncated subtraction (lines 89-91). -/
def analyzeNetwork (env : Env) (sources : List Source) : Option NetResult :=
  if sources.isEmpty then
    some { score := 100, details := "No sources to analyze." }
  else
    match extractUniqueDomains env sources with
    | none => none
    | some ds =>
      let st := netLoop env.dns ds
      let n := st.shared.card
      some { score := 100 - n * 20, details := s!"{n} domains may be part of a shared network." }

/-- Per-domain outcome of the authority loop body (lines 108-120): the
points added to `totalAuthorityScore` and whether `lowAuthorityCount` is
incremented.  `lookup = none` is the catch branch (+50); otherwise
`resultCount = data.search_information?.total_results || 0` buckets into
20 / 70 / 100 (lines 112-116). -/
def authorityPoints (lookup : Option (Option Nat)) : Nat × Bool :=
  match lookup with
  | none => (50, false)
  | some tr =>
    let resultCount := tr.getD 0
    if resultCount < 1000 then (20, true)
    else if resultCount < 100000 then (70, false)
    else (100, false)

/-- The accumulation loop of `analyzeSimplifiedEEAT` (lines 103-121),
threading `(totalAuthorityScore, lowAuthorityCount)`. -/
def eeatLoop (search : String → Option (Option Nat)) (domains : List String) : Nat × Nat :=
  domains.foldl
    (fun acc d =>
      let p := authorityPoints (search d)
      (acc.1 + p.1, acc.2 + (if p.2 then 1 else 0)))
    (0, 0)

/-- Embeds `analyzeSimplifiedEEAT` (analyze.js lines 94-125).  The credential
check comes first (lines 96-100), then the empty-input check (line 101);
a malformed URL throws at line 105, outside the per-domain try/catch;
otherwise the score is `Math.round(totalAuthorityScore / n)` over the `n`
unique domains (lines 123-124). -/
def analyzeSimplifiedEEAT (cfg : Config) (env : Env) (sources : List Source) :
    Option EEATResult :=
  if !cfg.searchApiKey then
    some { score := 100, details := "Analysis skipped: API Key not configured." }
  else if sources.isEmpty then
    some { score := 100, details := "No sources to analyze." }
  else
    match extractUniqueDomains env sources with
    | none => none
    | some ds =>
      let acc := eeatLoop env.search ds
      some { score := jsRoundDiv acc.1 ds.length,
             details := s!"{acc.2} domains have very low authority." }

/-- Embeds `synthesizeScore` (analyze.js lines 127-147): fixed weights 0.1 / 0.5
/ 0.4, `Math.round`, then the three-way summary.  The initial
`"Analysis complete. "` assignment at line 135 is dead (every branch of
the if/else chain overwrites it) and is not modelled. -/
def synthesizeScore (results : Metrics) : Nat × String :=
  let overallScore := jsRound10 results.queryFraming.score results.networkAnalysis.score
    results.simplifiedEEAT.score
  let summary :=
    if overallScore < 60 then
      let s := "High risk of manipulation detected. "
      let s := if results.networkAnalysis.score < 60 then s ++ results.networkAnalysis.details else s
      let s := if results.simplifiedEEAT.score < 60 then s ++ " " ++ results.simplifiedEEAT.details else s
      s
    else if overallScore < 85 then
      "Medium risk detected. Please review sources with caution."
    else
      "Low risk detected. The sources appear generally trustworthy."
  (overallScore, summary)

/-- The request handler (analyze.js lines 5-35): runs the three analyzers,
synthesizes, and assembles the response.  `none` models the request dying
on an uncaught exception (the handler has no try/catch of its own). -/
def handler (cfg : Config) (env : Env) (userQuery : String) (citedSources : List Source) :
    Option OverallResult :=
  let qf := analyzeQueryFraming cfg env userQuery
  match analyzeNetwork env citedSources with
  | none => none
  | some net =>
    match analyzeSimplifiedEEAT cfg env citedSources with
    | none => none
    | some eeat =>
      let m : Metrics := ⟨qf, net, eeat⟩
      let r := synthesizeScore m
      some { overallScore := r.1, summary := r.2,
             alternativeAnswer := "The Alternative Answer feature is in development. It will show a corrected response here.",
             metrics := m }

/-! ### Characterization of the network loop -/

/-- Holds when `d` shares its resolved IP with some other domain of `l`: the
membership criterion that `sharedIpDomains` turns out to implement. -/
def sharesIp (resolve : String → Option String) (l : List String) (d : String) : Bool :=
  (resolve d).isSome && l.any fun e => decide (e ≠ d) && decide (resolve e = resolve d)

/-- The state of the network loop after processing `processed`: `ipMap`
holds, per address, the processed domains resolving to it in order, and
`sharedIpDomains` the processed domains sharing their IP. -/
def mkState (resolve : String → Option String) (processed : List String) : NetState :=
  { ipMap := fun a => processed.filter fun d => decide (resolve d = some a),
    shared := (processed.filter (sharesIp resolve processed)).toFinset }

/-- Stated from the words of claim C4: each unique domain contributes points
determined by its result count — `< 1000` gives 20, `< 100000` gives 70,
otherwise 100 — and a failed lookup gives 50. -/
def claimAuthorityContribution (env : Env) (d : String) : Nat :=
  match env.search d with
  | none => 50
  | some tr => if tr.getD 0 < 1000 then 20 else if tr.getD 0 < 100000 then 70 else 100

/-! ### Concrete scenarios used by witnesses and counterexamples -/

/-- Scenario for C1: no capability reachable, no sources. -/
def c1Env : Env :=
  { classify := fun _ => none, dns := fun _ => none,
    search := fun _ => none, urlHost := fun _ => none }

/-- Scenario for C2: one parseable URL; every other URL makes the
platform URL constructor throw (e.g. `new URL("not a url")`). -/
def c2Env : Env :=
  { classify := fun _ => some "Neutral", dns := fun _ => some "1.1.1.1",
    search := fun _ => some (some 500000),
    urlHost := fun u => if u = "http://a.com" then some "a.com" else none }

/-- Scenario for C3: `a.com` and `b.com` co-resident on one IP, `c.com`
alone on another. -/
def c3Env : Env :=
  { classify := fun _ => none,
    dns := fun d => if d = "a.com" ∨ d = "b.com" then some "1.1.1.1" else some "2.2.2.2",
    search := fun _ => none,
    urlHost := fun u =>
      if u = "http://a.com" then some "a.com"
      else if u = "http://b.com" then some "b.com"
      else if u = "http://c.com" then some "c.com"
      else none }

def c3Srcs : List Source := [⟨"http://a.com"⟩, ⟨"http://b.com"⟩, ⟨"http://c.com"⟩]

/-- Scenario for C4: result counts 500, 5000, 500000 and one throwing
lookup — the four contribution cases of the claim. -/
def c4Env : Env :=
  { classify := fun _ => none, dns := fun _ => none,
    search := fun d =>
      if d = "a.com" then some (some 500)
      else if d = "b.com" then some (some 5000)
      else if d = "c.com" then some (some 500000)
      else none,
    urlHost := fun u =>
      if u = "http://a.com" then some "a.com"
      else if u = "http://b.com" then some "b.com"
      else if u = "http://c.com" then some "c.com"
      else if u = "http://d.com" then some "d.com"
      else none }

def c4Srcs : List Source :=
  [⟨"http://a.com"⟩, ⟨"http://b.com"⟩, ⟨"http://c.com"⟩, ⟨"http://d.com"⟩]

/-- Scenario for C6: the search call succeeds and parses, but the JSON
has no `search_information.total_results` field. -/
def c6Env : Env :=
  { classify := fun _ => none, dns := fun _ => some "1.1.1.1",
    search := fun _ => some none,
    urlHost := fun u => if u = "http://a.com" then some "a.com" else none }

/-- Scenario for C7: oracles irrelevant (empty source list). -/
def c7Env : Env :=
  { classify := fun _ => none, dns := fun _ => none,
    search := fun _ => none, urlHost := fun _ => none }

/-- Scenario for C8: two sources whose hostnames resolve to the same IP
(the spec §8 scenario), no credentials. -/
def c8Env : Env :=
  { classify := fun _ => none,
    dns := fun _ => some "1.1.1.1",
    search := fun _ => none,
    urlHost := fun u =>
      if u = "http://a.com" then some "a.com"
      else if u = "http://b.com" then some "b.com"
      else none }

def c8Srcs : List Source := [⟨"http://a.com"⟩, ⟨"http://b.com"⟩]

/-- Scenario for C9: the classifier answers with the Biased label. -/
def c9Env : Env :=
  { classify := fun _ => some " Biased", dns := fun _ => none,
    search := fun _ => none, urlHost := fun _ => none }

/-- Scenario for C10: five co-resident domains (network score 0), and
searches that parse but miss `total_results` (authority score 20). -/
def c10Env : Env :=
  { classify := fun _ => none,
    dns := fun _ => some "9.9.9.9",
    search := fun _ => some none,
    urlHost := fun u =>
      if u = "http://a.com" then some "a.com"
      else if u = "http://b.com" then some "b.com"
      else if u = "http://c.com" then some "c.com"
      else if u = "http://d.com" then some "d.com"
      else if u = "http://e.com" then some "e.com"
      else none }

def c10Srcs : List Source :=
  [⟨"http://a.com"⟩, ⟨"http://b.com"⟩, ⟨"http://c.com"⟩, ⟨"http://d.com"⟩, ⟨"http://e.com"⟩]

/-- The response produced in the C1 scenario (no credentials, no sources). -/
def c1Res : OverallResult :=
  { overallScore := 100,
    summary := "Low risk detected. The sources appear generally trustworthy.",
    alternativeAnswer := "The Alternative Answer feature is in development. It will show a corrected response here.",
    metrics :=
      { queryFraming := ⟨100, false, "Analysis skipped: API Key not configured."⟩,
        networkAnalysis := ⟨100, "No sources to analyze."⟩,
        simplifiedEEAT := ⟨100, "Analysis skipped: API Key not configured."⟩ } }

/-- The response produced in the C8 scenario (no credentials, two
co-resident sources): the spec §8 scenario landing on 80. -/
def c8Res : OverallResult :=
  { overallScore := 80,
    summary := "Medium risk detected. Please review sources with caution.",
    alternativeAnswer := "The Alternative Answer feature is in development. It will show a corrected response here.",
    metrics :=
      { queryFraming := ⟨100, false, "Analysis skipped: API Key not configured."⟩,
        networkAnalysis := ⟨60, "2 domains may be part of a shared network."⟩,
        simplifiedEEAT := ⟨100, "Analysis skipped: API Key not configured."⟩ } }

/-- The authority result in the C10 scenario: five domains, each with a
parsed response missing `total_results`, each contributing 20. -/
def c10Res : EEATResult := ⟨20, "5 domains have very low authority."⟩

/-! ### Basic lemmas about the analyzers -/

/-- The query-framing score is always 50 or 100 (lines 44, 61, 64). -/
lemma framing_score_cases (cfg : Config) (env : Env) (q : String) :
    (analyzeQueryFraming cfg env q).score = 50 ∨ (analyzeQueryFraming cfg env q).score = 100 := by
  unfold analyzeQueryFraming
  split
  · right; rfl
  · cases env.classify q with
    | none => right; rfl
    | some content => by_cases hb : strContains content.trim.toLower "biased" <;> simp [hb]

/-- The points added per domain are one of 20, 50, 70, 100 (lines 114-119). -/
lemma authorityPoints_cases (o : Option (Option Nat)) :
    (authorityPoints o).1 = 20 ∨ (authorityPoints o).1 = 50 ∨
    (authorityPoints o).1 = 70 ∨ (authorityPoints o).1 = 100 := by
  rcases o with _ | tr
  · right; left; rfl
  · unfold authorityPoints
    by_cases h1 : tr.getD 0 < 1000
    · left; simp [h1]
    · by_cases h2 : tr.getD 0 < 100000 <;> simp [h1, h2]

lemma authorityPoints_le_100 (o : Option (Option Nat)) : (authorityPoints o).1 ≤ 100 := by
  rcases authorityPoints_cases o with h | h | h | h <;> omega

lemma authorityPoints_ge_20 (o : Option (Option Nat)) : 20 ≤ (authorityPoints o).1 := by
  rcases authorityPoints_cases o with h | h | h | h <;> omega

/-- The accumulated total of the authority loop, relative to any start. -/
lemma eeatLoop_fold_fst (s : String → Option (Option Nat)) (ds : List String) :
    ∀ t c : Nat,
      (ds.foldl
        (fun acc d =>
          let p := authorityPoints (s d)
          (acc.1 + p.1, acc.2 + (if p.2 then 1 else 0)))
        (t, c)).1 = t + (ds.map fun d => (authorityPoints (s d)).1).sum := by
  induction ds with
  | nil => intro t c; simp
  | cons d rest ih =>
    intro t c
    simp only [List.foldl_cons, List.map_cons, List.sum_cons]
    rw [ih]
    omega

/-- The authority loop total is the sum of the per-domain points. -/
lemma eeatLoop_fst (s : String → Option (Option Nat)) (ds : List String) :
    (eeatLoop s ds).1 = (ds.map fun d => (authorityPoints (s d)).1).sum := by
  unfold eeatLoop
  simpa using eeatLoop_fold_fst s ds 0 0

lemma sum_points_le (s : String → Option (Option Nat)) (ds : List String) :
    (ds.map fun d => (authorityPoints (s d)).1).sum ≤ 100 * ds.length := by
  induction ds with
  | nil => simp
  | cons d rest ih =>
    simp only [List.map_cons, List.sum_cons, List.length_cons]
    have := authorityPoints_le_100 (s d)
    omega

lemma sum_points_ge (s : String → Option (Option Nat)) (ds : List String) :
    20 * ds.length ≤ (ds.map fun d => (authorityPoints (s d)).1).sum := by
  induction ds with
  | nil => simp
  | cons d rest ih =>
    simp only [List.map_cons, List.sum_cons, List.length_cons]
    have := authorityPoints_ge_20 (s d)
    omega

lemma jsRoundDiv_le_100 (t n : Nat) (h : t ≤ 100 * n) : jsRoundDiv t n ≤ 100 := by
  unfold jsRoundDiv
  have h1 : 2 * t + n ≤ 100 * (2 * n) + n := by omega
  calc (2 * t + n) / (2 * n) ≤ (100 * (2 * n) + n) / (2 * n) := Nat.div_le_div_right h1
    _ ≤ 100 := by
        rcases Nat.eq_zero_or_pos n with h0 | h0
        · simp [h0]
        · have h2 : 100 * (2 * n) + n = n + 2 * n * 100 := by ring
          rw [h2, Nat.add_mul_div_left _ _ (by omega : 0 < 2 * n)]
          have : n / (2 * n) = 0 := Nat.div_eq_of_lt (by omega)
          omega

lemma jsRoundDiv_ge_20 (t n : Nat) (hn : 0 < n) (h : 20 * n ≤ t) : 20 ≤ jsRoundDiv t n := by
  unfold jsRoundDiv
  have h1 : 20 * (2 * n) ≤ 2 * t + n := by omega
  calc (20 : Nat) = (20 * (2 * n)) / (2 * n) := by
        rw [Nat.mul_div_cancel _ (by omega : 0 < 2 * n)]
    _ ≤ (2 * t + n) / (2 * n) := Nat.div_le_div_right h1

/-- First-occurrence dedup keeps the accumulator duplicate-free. -/
lemma jsSetDedup_fold_nodup (l : List String) :
    ∀ acc : List String, acc.Nodup →
      (l.foldl (fun acc x => if x ∈ acc then acc else acc ++ [x]) acc).Nodup := by
  induction l with
  | nil => intro acc h; simpa using h
  | cons x rest ih =>
    intro acc h
    simp only [List.foldl_cons]
    by_cases hx : x ∈ acc
    · rw [if_pos hx]; exact ih acc h
    · rw [if_neg hx]
      refine ih (acc ++ [x]) ?_
      simp [List.nodup_append, h, List.disjoint_singleton, hx]

lemma jsSetDedup_nodup (l : List String) : (jsSetDedup l).Nodup :=
  jsSetDedup_fold_nodup l [] List.nodup_nil

lemma jsSetDedup_fold_length (l : List String) :
    ∀ acc : List String,
      acc.length ≤ (l.foldl (fun acc x => if x ∈ acc then acc else acc ++ [x]) acc).length := by
  induction l with
  | nil => intro acc; simp
  | cons x rest ih =>
    intro acc
    simp only [List.foldl_cons]
    by_cases hx : x ∈ acc
    · rw [if_pos hx]; exact ih acc
    · rw [if_neg hx]
      calc acc.length ≤ (acc ++ [x]).length := by simp
        _ ≤ _ := ih (acc ++ [x])

/-- Deduplicating a non-empty list yields a non-empty list. -/
lemma jsSetDedup_ne_nil (l : List String) (h : l ≠ []) : jsSetDedup l ≠ [] := by
  cases l with
  | nil => exact absurd rfl h
  | cons x rest =>
    unfold jsSetDedup
    simp only [List.foldl_cons]
    rw [if_neg (List.not_mem_nil x), List.nil_append]
    intro hnil
    have := jsSetDedup_fold_length rest [x]
    rw [hnil] at this
    simp at this

/-- If every URL parses, `sources.map(src => new URL(src.url).hostname)`
does not throw. -/
lemma extractHosts_isSome (env : Env) (sources : List Source)
    (h : ∀ s ∈ sources, (env.urlHost s.url).isSome = true) :
    ∃ hs, extractHosts env sources = some hs ∧ hs.length = sources.length := by
  induction sources with
  | nil => exact ⟨[], rfl, rfl⟩
  | cons s rest ih =>
    have hs : (env.urlHost s.url).isSome = true := h s (by simp)
    rcases Option.isSome_iff_exists.mp hs with ⟨hhost, hh⟩
    rcases ih (fun t ht => h t (by simp [ht])) with ⟨tl, htl, hlen⟩
    exact ⟨hhost :: tl, by simp [extractHosts, hh, htl], by simp [hlen]⟩

/-- A successful extraction of a non-empty source list yields a non-empty,
duplicate-free domain list. -/
lemma extractUniqueDomains_spec (env : Env) (sources : List Source) (ds : List String)
    (h : extractUniqueDomains env sources = some ds) :
    ds.Nodup ∧ (sources ≠ [] → ds ≠ []) := by
  unfold extractUniqueDomains at h
  cases hh : extractHosts env sources with
  | none => rw [hh] at h; simp at h
  | some hosts =>
    rw [hh] at h
    simp only [Option.map] at h
    rw [Option.some_inj] at h
    subst h
    refine ⟨jsSetDedup_nodup hosts, fun hne => ?_⟩
    refine jsSetDedup_ne_nil hosts ?_
    intro h0
    subst h0
    cases sources with
    | nil => exact hne rfl
    | cons s rest =>
      simp only [extractHosts] at hh
      cases h1 : env.urlHost s.url with
      | none => rw [h1] at hh; simp at hh
      | some v =>
        rw [h1] at hh
        cases h2 : extractHosts env rest with
        | none => rw [h2] at hh; simp at hh
        | some tl => rw [h2] at hh; simp at hh

/-- Unfolding of a successful `analyzeSimplifiedEEAT` run in work mode:
credential present and at least one source. -/
lemma eeat_run (cfg : Config) (env : Env) (sources : List Source) (ds : List String)
    (hkey : cfg.searchApiKey = true) (hne : sources ≠ [])
    (hex : extractUniqueDomains env sources = some ds) :
    analyzeSimplifiedEEAT cfg env sources =
      some { score := jsRoundDiv (eeatLoop env.search ds).1 ds.length,
             details := s!"{(eeatLoop env.search ds).2} domains have very low authority." } := by
  unfold analyzeSimplifiedEEAT
  rw [hkey]
  have : sources.isEmpty = false := by
    cases sources with
    | nil => exact absurd rfl hne
    | cons s rest => rfl
  rw [this]
  simp only [Bool.not_true, Bool.false_eq_true, if_false, hex]

/-- Every result `analyzeSimplifiedEEAT` returns has score at most 100. -/
lemma eeat_score_le_100 (cfg : Config) (env : Env) (sources : List Source) (r : EEATResult)
    (h : analyzeSimplifiedEEAT cfg env sources = some r) : r.score ≤ 100 := by
  unfold analyzeSimplifiedEEAT at h
  split at h
  · cases h; simp
  · split at h
    · cases h; simp
    · cases hex : extractUniqueDomains env sources with
      | none => rw [hex] at h; simp at h
      | some ds =>
        rw [hex] at h
        simp only [Option.some_inj] at h
        subst h
        simp only
        refine jsRoundDiv_le_100 _ _ ?_
        rw [eeatLoop_fst]
        exact sum_points_le env.search ds

/-- Every result `analyzeNetwork` returns has score at most 100. -/
lemma net_score_le_100 (env : Env) (sources : List Source) (r : NetResult)
    (h : analyzeNetwork env sources = some r) : r.score ≤ 100 := by
  unfold analyzeNetwork at h
  split at h
  · cases h; simp
  · cases hex : extractUniqueDomains env sources with
    | none => rw [hex] at h; simp at h
    | some ds =>
      rw [hex] at h
      simp only [Option.some_inj] at h
      subst h
      exact Nat.sub_le _ _

/-- Decomposition of a successful handler run (analyze.js lines 14-34). -/
lemma handler_some (cfg : Config) (env : Env) (q : String) (sources : List Source)
    (r : OverallResult) (h : handler cfg env q sources = some r) :
    r.metrics.queryFraming = analyzeQueryFraming cfg env q ∧
    analyzeNetwork env sources = some r.metrics.networkAnalysis ∧
    analyzeSimplifiedEEAT cfg env sources = some r.metrics.simplifiedEEAT ∧
    r.overallScore = jsRound10 r.metrics.queryFraming.score r.metrics.networkAnalysis.score
      r.metrics.simplifiedEEAT.score := by
  unfold handler at h
  cases hnet : analyzeNetwork env sources with
  | none => rw [hnet] at h; simp at h
  | some net =>
    rw [hnet] at h
    cases heeat : analyzeSimplifiedEEAT cfg env sources with
    | none => rw [heeat] at h; simp at h
    | some eeat =>
      rw [heeat] at h
      simp only [Option.some_inj] at h
      subst h
      exact ⟨rfl, rfl, rfl, rfl⟩

/-- Behavior of `analyzeSimplifiedEEAT` in work mode when the URL mapping throws. -/
lemma eeat_run_none (cfg : Config) (env : Env) (sources : List Source)
    (hkey : cfg.searchApiKey = true) (hne : sources ≠ [])
    (hex : extractUniqueDomains env sources = none) :
    analyzeSimplifiedEEAT cfg env sources = none := by
  unfold analyzeSimplifiedEEAT
  rw [hkey]
  have : sources.isEmpty = false := by
    cases sources with
    | nil => exact absurd rfl hne
    | cons s rest => rfl
  rw [this]
  simp only [Bool.not_true, Bool.false_eq_true, if_false, hex]

/-- With the credential unconfigured, query framing returns the fixed
skip record (analyze.js lines 42-45). -/
lemma framing_unconfigured (cfg : Config) (env : Env) (q : String)
    (h : cfg.deepseekApiKey = false) :
    analyzeQueryFraming cfg env q =
      ⟨100, false, "Analysis skipped: API Key not configured."⟩ := by
  unfold analyzeQueryFraming
  rw [h]
  rfl

/-- With the credential unconfigured, the authority analyzer returns the
fixed skip record (analyze.js lines 96-100). -/
lemma eeat_unconfigured (cfg : Config) (env : Env) (sources : List Source)
    (h : cfg.searchApiKey = false) :
    analyzeSimplifiedEEAT cfg env sources =
      some ⟨100, "Analysis skipped: API Key not configured."⟩ := by
  unfold analyzeSimplifiedEEAT
  rw [h]
  rfl

lemma extractUniqueDomains_isSome (env : Env) (sources : List Source)
    (h : ∀ s ∈ sources, (env.urlHost s.url).isSome = true) :
    ∃ ds, extractUniqueDomains env sources = some ds := by
  rcases extractHosts_isSome env sources h with ⟨hs, hhs, _⟩
  exact ⟨jsSetDedup hs, by simp [extractUniqueDomains, hhs]⟩

/-- The analyzer `analyzeNetwork` returns a result whenever every URL parses. -/
lemma net_isSome (env : Env) (sources : List Source)
    (h : ∀ s ∈ sources, (env.urlHost s.url).isSome = true) :
    (analyzeNetwork env sources).isSome = true := by
  unfold analyzeNetwork
  split
  · rfl
  · rcases extractUniqueDomains_isSome env sources h with ⟨ds, hds⟩
    rw [hds]
    rfl

/-- The analyzer `analyzeSimplifiedEEAT` returns a result whenever every URL parses. -/
lemma eeat_isSome (cfg : Config) (env : Env) (sources : List Source)
    (h : ∀ s ∈ sources, (env.urlHost s.url).isSome = true) :
    (analyzeSimplifiedEEAT cfg env sources).isSome = true := by
  unfold analyzeSimplifiedEEAT
  split
  · rfl
  · split
    · rfl
    · rcases extractUniqueDomains_isSome env sources h with ⟨ds, hds⟩
      rw [hds]
      rfl

lemma synthesizeScore_fst (m : Metrics) :
    (synthesizeScore m).1 =
      jsRound10 m.queryFraming.score m.networkAnalysis.score m.simplifiedEEAT.score := rfl

lemma synthesizeScore_snd (m : Metrics) :
    (synthesizeScore m).2 =
      if (synthesizeScore m).1 < 60 then
        (let s := "High risk of manipulation detected. "
         let s := if m.networkAnalysis.score < 60 then s ++ m.networkAnalysis.details else s
         if m.simplifiedEEAT.score < 60 then s ++ " " ++ m.simplifiedEEAT.details else s)
      else if (synthesizeScore m).1 < 85 then
        "Medium risk detected. Please review sources with caution."
      else
        "Low risk detected. The sources appear generally trustworthy." := rfl

/-! ### Claim theorems -/

/-- Claim C5: the summary tiers of the synthesizer are mutually exclusive and
exhaustive over every overallScore: a score of exactly 60 yields the
Medium-risk text, exactly 85 the Low-risk text, and every score falls in
exactly one of the tiers `< 60`, `60–84`, `≥ 85`. -/
theorem c5_summary_tiers :
    (∀ m : Metrics, (synthesizeScore m).1 = 60 →
      (synthesizeScore m).2 = "Medium risk detected. Please review sources with caution.") ∧
    (∀ m : Metrics, (synthesizeScore m).1 = 85 →
      (synthesizeScore m).2 = "Low risk detected. The sources appear generally trustworthy.") ∧
    (∀ m : Metrics,
      ((synthesizeScore m).1 < 60 ∧
        ¬(60 ≤ (synthesizeScore m).1 ∧ (synthesizeScore m).1 < 85) ∧
        ¬85 ≤ (synthesizeScore m).1) ∨
      (¬(synthesizeScore m).1 < 60 ∧
        (60 ≤ (synthesizeScore m).1 ∧ (synthesizeScore m).1 < 85) ∧
        ¬85 ≤ (synthesizeScore m).1) ∨
      (¬(synthesizeScore m).1 < 60 ∧
        ¬(60 ≤ (synthesizeScore m).1 ∧ (synthesizeScore m).1 < 85) ∧
        85 ≤ (synthesizeScore m).1)) := by
  refine ⟨fun m h => ?_, fun m h => ?_, fun m => by omega⟩
  · rw [synthesizeScore_snd, h]
    norm_num
  · rw [synthesizeScore_snd, h]
    norm_num

/-- Witness for C5 at two concrete metric records whose synthesized
scores land exactly on the 60 and 85 boundaries. -/
theorem c5_witness :
    (synthesizeScore ⟨⟨100, false, ""⟩, ⟨60, ""⟩, ⟨50, ""⟩⟩).2 =
      "Medium risk detected. Please review sources with caution." ∧
    (synthesizeScore ⟨⟨50, true, ""⟩, ⟨100, ""⟩, ⟨75, ""⟩⟩).2 =
      "Low risk detected. The sources appear generally trustworthy." :=
  ⟨c5_summary_tiers.1 ⟨⟨100, false, ""⟩, ⟨60, ""⟩, ⟨50, ""⟩⟩ (by decide),
   c5_summary_tiers.2.1 ⟨⟨50, true, ""⟩, ⟨100, ""⟩, ⟨75, ""⟩⟩ (by decide)⟩

/-- Claim C9: with the credential configured and a classification
response received, `isBiased` holds iff the trimmed, lower-cased response
contains the substring "biased", and the score is 50 when biased and 100
otherwise. -/
theorem c9_bias_parsing (cfg : Config) (env : Env) (q content : String)
    (hkey : cfg.deepseekApiKey = true) (hc : env.classify q = some content) :
    (analyzeQueryFraming cfg env q).isBiased = strContains content.trim.toLower "biased" ∧
    (analyzeQueryFraming cfg env q).score =
      (if (analyzeQueryFraming cfg env q).isBiased then 50 else 100) := by
  have h1 : analyzeQueryFraming cfg env q =
      { score := if strContains content.trim.toLower "biased" then 50 else 100,
        isBiased := strContains content.trim.toLower "biased",
        details := s!"Query was classified as: {content.trim.toLower}" } := by
    unfold analyzeQueryFraming
    rw [hkey, hc]
    rfl
  rw [h1]
  exact ⟨rfl, rfl⟩

/-- Witness for C9: the classifier answers " Biased", which trims and
lower-cases to a string containing "biased". -/
theorem c9_witness :
    (analyzeQueryFraming ⟨true, false⟩ c9Env "why is X superior to Y").isBiased =
      strContains (" Biased").trim.toLower "biased" ∧
    (analyzeQueryFraming ⟨true, false⟩ c9Env "why is X superior to Y").score =
      (if (analyzeQueryFraming ⟨true, false⟩ c9Env "why is X superior to Y").isBiased
       then 50 else 100) :=
  c9_bias_parsing ⟨true, false⟩ c9Env "why is X superior to Y" " Biased" rfl rfl

/-- Counterexample for C7: with the search credential unconfigured, the
empty source list hits the credential check first (analyze.js line 97)
and yields the skip message, not "No sources to analyze." as the claim
requires regardless of the credential. -/
theorem c7_order_counterexample :
    analyzeSimplifiedEEAT ⟨true, false⟩ c7Env [] =
      some { score := 100, details := "Analysis skipped: API Key not configured." } ∧
    analyzeSimplifiedEEAT ⟨true, false⟩ c7Env [] ≠
      some { score := 100, details := "No sources to analyze." } := by
  exact ⟨rfl, by decide⟩

/-- Claim C7 amended: the credential check runs first; on an empty source
list the authority analyzer returns score 100 with details "No sources to
analyze." when the credential is configured, and score 100 in every
configuration. -/
theorem c7_empty_sources :
    (∀ cfg : Config, ∀ env : Env, cfg.searchApiKey = true →
      analyzeSimplifiedEEAT cfg env [] = some ⟨100, "No sources to analyze."⟩) ∧
    (∀ cfg : Config, ∀ env : Env,
      (analyzeSimplifiedEEAT cfg env []).map EEATResult.score = some 100) := by
  constructor
  · intro cfg env h
    unfold analyzeSimplifiedEEAT
    rw [h]
    rfl
  · intro cfg env
    unfold analyzeSimplifiedEEAT
    by_cases h : cfg.searchApiKey = true
    · rw [h]; rfl
    · have : cfg.searchApiKey = false := by
        cases hc : cfg.searchApiKey
        · rfl
        · exact absurd hc h
      rw [this]
      rfl

/-- Witness for C7 (amended): configured credential, empty sources. -/
theorem c7_witness :
    analyzeSimplifiedEEAT ⟨true, true⟩ c7Env [] = some ⟨100, "No sources to analyze."⟩ :=
  c7_empty_sources.1 ⟨true, true⟩ c7Env rfl

lemma jsRound10_le_100 (q n e : Nat) (hq : q ≤ 100) (hn : n ≤ 100) (he : e ≤ 100) :
    jsRound10 q n e ≤ 100 := by
  unfold jsRound10
  omega

/-- Claim C1: whenever the handler produces a final response, its
`overallScore` is an integer in [0,100], for every configuration of the
credentials and every behavior of the external capabilities. -/
theorem c1_overallScore_in_range (cfg : Config) (env : Env) (q : String)
    (sources : List Source) (r : OverallResult)
    (h : handler cfg env q sources = some r) :
    0 ≤ r.overallScore ∧ r.overallScore ≤ 100 := by
  obtain ⟨hq, hnet, heeat, hscore⟩ := handler_some cfg env q sources r h
  refine ⟨Nat.zero_le _, ?_⟩
  rw [hscore]
  refine jsRound10_le_100 _ _ _ ?_ ?_ ?_
  · rw [hq]
    rcases framing_score_cases cfg env q with h' | h' <;> omega
  · exact net_score_le_100 env sources _ hnet
  · exact eeat_score_le_100 cfg env sources _ heeat

/-- Witness for C1: the no-credential, no-source request produces the
all-100 response, whose score is in range. -/
theorem c1_witness :
    handler ⟨false, false⟩ c1Env "q" [] = some c1Res ∧
    (0 ≤ c1Res.overallScore ∧ c1Res.overallScore ≤ 100) :=
  ⟨by decide, c1_overallScore_in_range ⟨false, false⟩ c1Env "q" [] c1Res (by decide)⟩

/-- Counterexample for C2: a source whose URL the platform URL
constructor rejects makes `new URL` throw outside every try/catch
(analyze.js line 71), aborting the whole request — no result is
returned, contradicting the claim that no failure originating in the
content of the source URLs ever aborts the request. -/
theorem c2_abort_counterexample :
    handler ⟨true, true⟩ c2Env "any query" [⟨"not a url"⟩] = none := by
  decide

/-- Claim C2 amended: for every input whose source URLs all parse, the
orchestrator always returns a complete result — no sub-analyzer failure
(capability outage, DNS failure, classification failure, search failure)
propagates as an uncaught error; only an unparseable source URL aborts
the request. -/
theorem c2_no_abort_on_parseable (cfg : Config) (env : Env) (q : String)
    (sources : List Source)
    (h : ∀ s ∈ sources, (env.urlHost s.url).isSome = true) :
    (handler cfg env q sources).isSome = true := by
  unfold handler
  rcases Option.isSome_iff_exists.mp (net_isSome env sources h) with ⟨net, hnet⟩
  rw [hnet]
  rcases Option.isSome_iff_exists.mp (eeat_isSome cfg env sources h) with ⟨eeat, heeat⟩
  rw [heeat]
  rfl

/-- Witness for C2 (amended): one parseable source URL, all capabilities
up — the handler returns a result. -/
theorem c2_witness :
    (handler ⟨true, true⟩ c2Env "what are the features of X"
      [⟨"http://a.com"⟩]).isSome = true :=
  c2_no_abort_on_parseable ⟨true, true⟩ c2Env "what are the features of X"
    [⟨"http://a.com"⟩] (by decide)

lemma authorityPoints_eq_claim (env : Env) (d : String) :
    (authorityPoints (env.search d)).1 = claimAuthorityContribution env d := by
  unfold authorityPoints claimAuthorityContribution
  cases env.search d with
  | none => rfl
  | some tr =>
    simp only
    split_ifs <;> rfl

/-- Claim C4: with the credential configured and sources present, the
authority score is the arithmetic mean, rounded, of per-domain
contributions: 20 for result count below 1000, 70 below 100000, 100
otherwise, and 50 for a failed lookup. -/
theorem c4_authority_mean (cfg : Config) (env : Env) (sources : List Source)
    (ds : List String) (hkey : cfg.searchApiKey = true) (hne : sources ≠ [])
    (hex : extractUniqueDomains env sources = some ds) :
    (analyzeSimplifiedEEAT cfg env sources).map EEATResult.score =
      some (jsRoundDiv ((ds.map (claimAuthorityContribution env)).sum) ds.length) := by
  rw [eeat_run cfg env sources ds hkey hne hex]
  show some (jsRoundDiv (eeatLoop env.search ds).1 ds.length) = _
  rw [eeatLoop_fst]
  have hfun : (fun d => (authorityPoints (env.search d)).1) = claimAuthorityContribution env :=
    funext fun d => authorityPoints_eq_claim env d
  rw [hfun]

/-- Witness for C4: counts 500, 5000, 500000 and a failed lookup give
contributions 20, 70, 100, 50, whose rounded mean 60 is the score. -/
theorem c4_witness :
    (analyzeSimplifiedEEAT ⟨true, true⟩ c4Env c4Srcs).map EEATResult.score =
      some (jsRoundDiv (((["a.com", "b.com", "c.com", "d.com"]).map
        (claimAuthorityContribution c4Env)).sum) (["a.com", "b.com", "c.com", "d.com"]).length) :=
  c4_authority_mean ⟨true, true⟩ c4Env c4Srcs ["a.com", "b.com", "c.com", "d.com"]
    rfl (by decide) (by decide)

/-- Counterexample for C6: a search response that parses but lacks
`total_results` (the very example the claim gives of a malformed shape) falls
through `|| 0` to result count 0 and contributes 20 (analyze.js lines
112-114), not the neutral fallback 50 the claim asserts: the sole
analyzer score for the sole domain comes out 20. -/
theorem c6_missing_field_counterexample :
    (analyzeSimplifiedEEAT ⟨true, true⟩ c6Env [⟨"http://a.com"⟩]).map EEATResult.score =
      some 20 ∧
    (analyzeSimplifiedEEAT ⟨true, true⟩ c6Env [⟨"http://a.com"⟩]).map EEATResult.score ≠
      some 50 := by
  exact ⟨rfl, by decide⟩

/-- Claim C6 amended: a domain whose search call throws (network error or
unparseable body) contributes exactly 50 and the failure is not
propagated; but a parsed response missing `total_results` is treated as
result count 0 and contributes 20 (flagged low-authority), and no search
failure of any kind aborts the analyzer. -/
theorem c6_failure_fallback :
    (authorityPoints none).1 = 50 ∧
    authorityPoints (some none) = (20, true) ∧
    (∀ cfg : Config, ∀ env : Env, ∀ sources : List Source,
      (∀ s ∈ sources, (env.urlHost s.url).isSome = true) →
      (analyzeSimplifiedEEAT cfg env sources).isSome = true) :=
  ⟨rfl, rfl, eeat_isSome⟩

/-- Witness for C6 (amended): the throwing-lookup contribution and the
non-propagation fact at a concrete input. -/
theorem c6_witness :
    (analyzeSimplifiedEEAT ⟨true, true⟩ c6Env [⟨"http://a.com"⟩]).isSome = true ∧
    (authorityPoints none).1 = 50 :=
  ⟨c6_failure_fallback.2.2 ⟨true, true⟩ c6Env [⟨"http://a.com"⟩] (by decide),
   c6_failure_fallback.1⟩

/-- Claim C8: with both credentials absent, the query-framing and
authority analyzers each contribute a fixed 100, so the overall score is
`round(100*0.10 + networkScore*0.50 + 100*0.40)` — only the network
analyzer can move the score. -/
theorem c8_only_network_moves (env : Env) (q : String) (sources : List Source)
    (r : OverallResult) (h : handler ⟨false, false⟩ env q sources = some r) :
    r.overallScore = jsRound10 100 r.metrics.networkAnalysis.score 100 := by
  obtain ⟨hq, hnet, heeat, hscore⟩ := handler_some ⟨false, false⟩ env q sources r h
  have h1 : r.metrics.queryFraming.score = 100 := by
    rw [hq, framing_unconfigured ⟨false, false⟩ env q rfl]
  have h2 : r.metrics.simplifiedEEAT.score = 100 := by
    rw [eeat_unconfigured ⟨false, false⟩ env sources rfl] at heeat
    rw [← Option.some_inj.mp heeat]
  rw [hscore, h1, h2]

/-- Witness for C8: two co-resident sources with no credentials — the
network score 60 yields overall `round(10 + 30 + 40) = 80`. -/
theorem c8_witness :
    handler ⟨false, false⟩ c8Env "q" c8Srcs = some c8Res ∧
    c8Res.overallScore = jsRound10 100 c8Res.metrics.networkAnalysis.score 100 :=
  ⟨by decide, c8_only_network_moves c8Env "q" c8Srcs c8Res (by decide)⟩

/-- Claim C10: every per-domain authority contribution is one of 20, 50,
70, 100, so whenever the authority analyzer actually computes a score
(credential set, sources present) that score is at least 20 — while the
network analyzer score can reach 0, as the concrete five-co-resident
scenario shows. -/
theorem c10_authority_floor :
    (∀ o : Option (Option Nat),
      (authorityPoints o).1 = 20 ∨ (authorityPoints o).1 = 50 ∨
      (authorityPoints o).1 = 70 ∨ (authorityPoints o).1 = 100) ∧
    (∀ cfg : Config, ∀ env : Env, ∀ sources : List Source, ∀ r : EEATResult,
      cfg.searchApiKey = true → sources ≠ [] →
      analyzeSimplifiedEEAT cfg env sources = some r → 20 ≤ r.score) ∧
    (analyzeNetwork c10Env c10Srcs).map NetResult.score = some 0 := by
  refine ⟨authorityPoints_cases, ?_, by decide⟩
  intro cfg env sources r hkey hne h
  cases hex : extractUniqueDomains env sources with
  | none =>
    rw [eeat_run_none cfg env sources hkey hne hex] at h
    exact absurd h (by simp)
  | some ds =>
    rw [eeat_run cfg env sources ds hkey hne hex] at h
    rw [← Option.some_inj.mp h]
    have hds : ds ≠ [] := (extractUniqueDomains_spec env sources ds hex).2 hne
    refine jsRoundDiv_ge_20 _ _ (List.length_pos.mpr hds) ?_
    rw [eeatLoop_fst]
    exact sum_points_ge env.search ds

/-- Witness for C10: five domains whose parsed responses miss
`total_results` all contribute 20; the analyzer score is exactly the
floor 20. -/
theorem c10_witness :
    analyzeSimplifiedEEAT ⟨true, true⟩ c10Env c10Srcs = some c10Res ∧ 20 ≤ c10Res.score :=
  ⟨by decide,
   c10_authority_floor.2.1 ⟨true, true⟩ c10Env c10Srcs c10Res rfl (by decide) (by decide)⟩

/-! ### The network loop invariant (claim C3) -/

lemma sharesIp_iff (r : String → Option String) (l : List String) (x : String) :
    sharesIp r l x = true ↔
      (r x).isSome = true ∧ ∃ e, e ∈ l ∧ e ≠ x ∧ r e = r x := by
  simp [sharesIp, List.any_eq_true]

lemma netStep_none (r : String → Option String) (st : NetState) (d : String)
    (h : r d = none) : netStep r st d = st := by
  unfold netStep
  rw [h]

lemma netStep_some_nil (r : String → Option String) (st : NetState) (d addr : String)
    (h : r d = some addr) (hp : st.ipMap addr = []) :
    netStep r st d = { st with ipMap := fun a => if a = addr then [d] else st.ipMap a } := by
  simp only [netStep, h, hp]

lemma netStep_some_cons (r : String → Option String) (st : NetState) (d addr e : String)
    (es : List String) (h : r d = some addr) (hp : st.ipMap addr = e :: es) :
    netStep r st d =
      { ipMap := fun a => if a = addr then (e :: es) ++ [d] else st.ipMap a,
        shared := st.shared ∪ ((e :: es) ++ [d]).toFinset } := by
  simp only [netStep, h, hp]

/-- One loop iteration moves the characterized state of `processed` to
that of `processed ++ [d]`. -/
lemma netStep_mkState (r : String → Option String) (processed : List String) (d : String)
    (hd : d ∉ processed) :
    netStep r (mkState r processed) d = mkState r (processed ++ [d]) := by
  cases hrd : r d with
  | none =>
    rw [netStep_none r _ d hrd]
    apply NetState.ext
    · funext a
      show processed.filter _ = (processed ++ [d]).filter _
      rw [List.filter_append]
      have h1 : [d].filter (fun x => decide (r x = some a)) = [] := by simp [hrd]
      rw [h1, List.append_nil]
    · show (processed.filter (sharesIp r processed)).toFinset =
        ((processed ++ [d]).filter (sharesIp r (processed ++ [d]))).toFinset
      congr 1
      symm
      rw [List.filter_append]
      have h1 : [d].filter (sharesIp r (processed ++ [d])) = [] := by
        have h2 : sharesIp r (processed ++ [d]) d = false := by
          unfold sharesIp
          rw [hrd]
          rfl
        simp [h2]
      rw [h1, List.append_nil]
      apply List.filter_congr
      intro x hx
      rw [Bool.eq_iff_iff, sharesIp_iff, sharesIp_iff]
      constructor
      · rintro ⟨hs, e, he, hne, hre⟩
        rcases List.mem_append.mp he with h' | h'
        · exact ⟨hs, e, h', hne, hre⟩
        · exfalso
          have : e = d := by simpa using h'
          subst this
          rw [hrd] at hre
          rw [← hre] at hs
          simp at hs
      · rintro ⟨hs, e, he, hne, hre⟩
        exact ⟨hs, e, List.mem_append_left _ he, hne, hre⟩
  | some addr =>
    cases hp : processed.filter (fun x => decide (r x = some addr)) with
    | nil =>
      have hm : ∀ x ∈ processed, r x ≠ some addr := by
        intro x hx hcon
        have : x ∈ processed.filter (fun x => decide (r x = some addr)) :=
          List.mem_filter.mpr ⟨hx, decide_eq_true hcon⟩
        rw [hp] at this
        simp at this
      rw [netStep_some_nil r _ d addr hrd (by exact hp)]
      apply NetState.ext
      · funext a
        show (if a = addr then [d] else processed.filter _) = (processed ++ [d]).filter _
        rw [List.filter_append]
        by_cases ha : a = addr
        · subst ha
          rw [if_pos rfl, hp, List.nil_append]
          simp [hrd]
        · rw [if_neg ha]
          have h1 : [d].filter (fun x => decide (r x = some a)) = [] := by
            simp only [List.filter, hrd]
            have : decide (some addr = some a) = false := by
              simp only [decide_eq_false_iff_not]
              intro h
              exact ha (Option.some_inj.mp h).symm
            rw [this]
          rw [h1, List.append_nil]
      · show (processed.filter (sharesIp r processed)).toFinset =
          ((processed ++ [d]).filter (sharesIp r (processed ++ [d]))).toFinset
        congr 1
        symm
        rw [List.filter_append]
        have h1 : [d].filter (sharesIp r (processed ++ [d])) = [] := by
          have h2 : sharesIp r (processed ++ [d]) d = false := by
            rw [← Bool.not_eq_true, sharesIp_iff]
            rintro ⟨hs, e, he, hne, hre⟩
            rcases List.mem_append.mp he with h' | h'
            · exact hm e h' (hre.trans hrd)
            · exact hne (by simpa using h')
          simp [h2]
        rw [h1, List.append_nil]
        apply List.filter_congr
        intro x hx
        rw [Bool.eq_iff_iff, sharesIp_iff, sharesIp_iff]
        constructor
        · rintro ⟨hs, e, he, hne, hre⟩
          rcases List.mem_append.mp he with h' | h'
          · exact ⟨hs, e, h', hne, hre⟩
          · exfalso
            have : e = d := by simpa using h'
            subst this
            exact hm x hx (hre.symm.trans hrd)
        · rintro ⟨hs, e, he, hne, hre⟩
          exact ⟨hs, e, List.mem_append_left _ he, hne, hre⟩
    | cons e es =>
      have he0 : e ∈ processed ∧ r e = some addr := by
        have : e ∈ processed.filter (fun x => decide (r x = some addr)) := by
          rw [hp]
          exact List.mem_cons_self e es
        have h' := List.mem_filter.mp this
        exact ⟨h'.1, of_decide_eq_true h'.2⟩
      have hmemprev : ∀ x, x ∈ e :: es ↔ x ∈ processed ∧ r x = some addr := by
        intro x
        rw [← hp]
        constructor
        · intro h'
          have h'' := List.mem_filter.mp h'
          exact ⟨h''.1, of_decide_eq_true h''.2⟩
        · intro h'
          exact List.mem_filter.mpr ⟨h'.1, decide_eq_true h'.2⟩
      rw [netStep_some_cons r _ d addr e es hrd (by exact hp)]
      apply NetState.ext
      · funext a
        show (if a = addr then (e :: es) ++ [d]
              else processed.filter fun x => decide (r x = some a)) =
          (processed ++ [d]).filter fun x => decide (r x = some a)
        by_cases ha : a = addr
        · rw [if_pos ha]
          subst ha
          rw [List.filter_append, ← hp]
          congr 1
          simp [hrd]
        · rw [if_neg ha, List.filter_append]
          have h1 : [d].filter (fun x => decide (r x = some a)) = [] := by
            simp only [List.filter, hrd]
            have : decide (some addr = some a) = false := by
              simp only [decide_eq_false_iff_not]
              intro h
              exact ha (Option.some_inj.mp h).symm
            rw [this]
          rw [h1, List.append_nil]
      · show (processed.filter (sharesIp r processed)).toFinset ∪ ((e :: es) ++ [d]).toFinset =
          ((processed ++ [d]).filter (sharesIp r (processed ++ [d]))).toFinset
        apply Finset.ext
        intro x
        simp only [Finset.mem_union, List.mem_toFinset, List.mem_filter]
        constructor
        · rintro (⟨hxm, hxP⟩ | hx)
          · refine ⟨List.mem_append_left _ hxm, ?_⟩
            rw [sharesIp_iff] at hxP ⊢
            obtain ⟨hs, e', he', hne', hre'⟩ := hxP
            exact ⟨hs, e', List.mem_append_left _ he', hne', hre'⟩
          · rcases List.mem_append.mp hx with hx' | hx'
            · have hx'' := (hmemprev x).mp hx'
              refine ⟨List.mem_append_left _ hx''.1, ?_⟩
              rw [sharesIp_iff]
              refine ⟨by simp [hx''.2], d, List.mem_append_right _ (by simp), ?_, ?_⟩
              · intro h'
                subst h'
                exact hd hx''.1
              · rw [hrd, hx''.2]
            · have hxd : x = d := by simpa using hx'
              subst hxd
              refine ⟨List.mem_append_right _ (by simp), ?_⟩
              rw [sharesIp_iff]
              refine ⟨by simp [hrd], e, List.mem_append_left _ he0.1, ?_, ?_⟩
              · intro h'
                subst h'
                exact hd he0.1
              · rw [hrd, he0.2]
        · rintro ⟨hxm, hxP⟩
          rw [sharesIp_iff] at hxP
          obtain ⟨hs, e', he', hne', hre'⟩ := hxP
          rcases List.mem_append.mp hxm with hxm' | hxm'
          · rcases List.mem_append.mp he' with he'' | he''
            · left
              exact ⟨hxm', (sharesIp_iff r processed x).mpr ⟨hs, e', he'', hne', hre'⟩⟩
            · have : e' = d := by simpa using he''
              subst this
              right
              apply List.mem_append_left
              rw [hmemprev x]
              exact ⟨hxm', hre'.symm.trans hrd⟩
          · right
            apply List.mem_append_right
            simpa using hxm'

/-- Running the loop over `rest` from the state of `processed` lands in
the state of `processed ++ rest`. -/
lemma foldl_netStep_eq (r : String → Option String) (rest : List String) :
    ∀ processed : List String, (processed ++ rest).Nodup →
      rest.foldl (netStep r) (mkState r processed) = mkState r (processed ++ rest) := by
  induction rest with
  | nil => intro processed h; simp
  | cons d rest ih =>
    intro processed h
    have hd : d ∉ processed := by
      intro hmem
      rw [List.nodup_append] at h
      exact h.2.2 hmem (List.mem_cons_self d rest)
    rw [List.foldl_cons, netStep_mkState r processed d hd]
    have h' : ((processed ++ [d]) ++ rest).Nodup := by simpa [List.append_assoc] using h
    simpa [List.append_assoc] using ih (processed ++ [d]) h'

/-- The loop of `analyzeNetwork`, started from the empty state, computes
exactly the characterized state of the whole (duplicate-free) list. -/
lemma netLoop_eq_mkState (r : String → Option String) (ds : List String) (h : ds.Nodup) :
    netLoop r ds = mkState r ds := by
  have hinit : (⟨fun _ => [], ∅⟩ : NetState) = mkState r [] := by
    apply NetState.ext
    · funext a; rfl
    · rfl
  unfold netLoop
  rw [hinit]
  simpa using foldl_netStep_eq r ds [] (by simpa using h)

/-- The set `sharedIpDomains` ends up holding exactly the domains that share
their resolved IP with some other domain of the list. -/
lemma netLoop_shared (r : String → Option String) (ds : List String) (h : ds.Nodup) :
    (netLoop r ds).shared = (ds.filter (sharesIp r ds)).toFinset := by
  rw [netLoop_eq_mkState r ds h]
  rfl

/-- Claim C3: if exactly `N ≥ 2` of the unique domains resolve to one
shared IP and every other domain resolves to an IP of its own, then
`sharedIpDomains` has size `N`, the network score is
`max(0, 100 - 20*N)`, and no domain outside the cluster ever enters
`sharedIpDomains`. -/
theorem c3_shared_ip_cluster (env : Env) (sources : List Source) (ds : List String)
    (ip0 : String) (N : Nat)
    (hne : sources ≠ [])
    (hex : extractUniqueDomains env sources = some ds)
    (hN : (ds.filter fun x => decide (env.dns x = some ip0)).length = N)
    (h2 : 2 ≤ N)
    (hoth : ∀ x ∈ ds, env.dns x ≠ some ip0 →
      ∃ ip, env.dns x = some ip ∧ ∀ e ∈ ds, e ≠ x → env.dns e ≠ some ip) :
    (netLoop env.dns ds).shared.card = N ∧
    (analyzeNetwork env sources).map (fun res => (res.score : Int)) =
      some (max 0 (100 - 20 * (N : Int))) ∧
    (∀ x ∈ ds, env.dns x ≠ some ip0 → x ∉ (netLoop env.dns ds).shared) := by
  have hnd : ds.Nodup := (extractUniqueDomains_spec env sources ds hex).1
  have key : ∀ x ∈ ds, sharesIp env.dns ds x = decide (env.dns x = some ip0) := by
    intro x hx
    by_cases hip : env.dns x = some ip0
    · rw [decide_eq_true hip, sharesIp_iff]
      refine ⟨by simp [hip], ?_⟩
      have hxS : x ∈ ds.filter (fun x => decide (env.dns x = some ip0)) :=
        List.mem_filter.mpr ⟨hx, decide_eq_true hip⟩
      have hSnd : (ds.filter (fun x => decide (env.dns x = some ip0))).Nodup := hnd.filter _
      have hother : ∃ e ∈ ds.filter (fun x => decide (env.dns x = some ip0)), e ≠ x := by
        by_contra hcon
        push_neg at hcon
        have hsub : (ds.filter (fun x => decide (env.dns x = some ip0))).toFinset ⊆ {x} := by
          intro e he
          rw [List.mem_toFinset] at he
          simp [hcon e he]
        have hcard := Finset.card_le_card hsub
        rw [List.toFinset_card_of_nodup hSnd, Finset.card_singleton, hN] at hcard
        omega
      rcases hother with ⟨e, heS, hene⟩
      have h' := List.mem_filter.mp heS
      exact ⟨e, h'.1, hene, (of_decide_eq_true h'.2).trans hip.symm⟩
    · have hdec : decide (env.dns x = some ip0) = false := by
        simpa using hip
      rw [hdec, ← Bool.not_eq_true, sharesIp_iff]
      rintro ⟨hs, e, he, hene, hre⟩
      rcases hoth x hx hip with ⟨ip, hxip, huniq⟩
      exact huniq e he hene (hre.trans hxip)
  have hshared : (netLoop env.dns ds).shared =
      (ds.filter fun x => decide (env.dns x = some ip0)).toFinset := by
    rw [netLoop_shared env.dns ds hnd]
    congr 1
    exact List.filter_congr key
  have hcard : (netLoop env.dns ds).shared.card = N := by
    rw [hshared, List.toFinset_card_of_nodup (hnd.filter _), hN]
  refine ⟨hcard, ?_, ?_⟩
  · unfold analyzeNetwork
    have hempty : sources.isEmpty = false := by
      cases sources with
      | nil => exact absurd rfl hne
      | cons s t => rfl
    rw [hempty]
    simp only [Bool.false_eq_true, if_false, hex]
    show some (((100 - (netLoop env.dns ds).shared.card * 20 : Nat) : Int)) = _
    rw [hcard]
    congr 1
    omega
  · intro x hx hip
    rw [hshared, List.mem_toFinset, List.mem_filter]
    rintro ⟨-, hdec⟩
    exact hip (of_decide_eq_true hdec)

/-- Witness for C3: `a.com` and `b.com` share one IP (N = 2), `c.com`
has its own; the cluster has size 2, the score is 60, and `c.com` stays
out of `sharedIpDomains`. -/
theorem c3_witness :
    (netLoop c3Env.dns ["a.com", "b.com", "c.com"]).shared.card = 2 ∧
    (analyzeNetwork c3Env c3Srcs).map (fun res => (res.score : Int)) =
      some (max 0 (100 - 20 * ((2 : Nat) : Int))) ∧
    "c.com" ∉ (netLoop c3Env.dns ["a.com", "b.com", "c.com"]).shared := by
  have h := c3_shared_ip_cluster c3Env c3Srcs ["a.com", "b.com", "c.com"] "1.1.1.1" 2
    (by decide) (by decide) (by decide) (by decide)
    (by
      intro x hx hip
      have hx' : x = "a.com" ∨ x = "b.com" ∨ x = "c.com" := by simpa using hx
      rcases hx' with rfl | rfl | rfl
      · exact absurd (by decide) hip
      · exact absurd (by decide) hip
      · exact ⟨"2.2.2.2", by decide, by decide⟩)
  exact ⟨h.1, h.2.1, h.2.2 "c.com" (by decide) (by decide)⟩

end TrustLens
